import Mathlib

/-!
Shallow embedding of the Mokemon input-overlay presenter (`mokemon.py`).

Numeric state (times, coordinates, smoothed deltas) is modelled with `ℚ`:
the Python program computes with floats, and the properties of interest are
stated at the level of exact arithmetic.  `math.sqrt` is kept abstract as a
parameter `sq : ℚ → ℚ` of the step function; since `math.sqrt u = 0` holds
exactly when `u = 0` (for the nonnegative arguments produced here), the
ZeroDivisionError raised by `self.cx / r` when `r == 0` is modelled by
testing `cx * cx + cy * cy = 0` directly and returning `none`.  All other
Python exceptions (the division by `self.rx` in `check_resize`) are likewise
modelled by `Option`: `none` means the handler raises.

Key codes are Python strings, modelled as `List Char`; `str.startswith` is
the function `startswith` below.
-/

/-- Python `code.startswith(pre)` on strings modelled as char lists. -/
def startswith : List Char → List Char → Bool
  | _, [] => true
  | [], _ :: _ => false
  | c :: cs, p :: ps => (c == p) && startswith cs ps

/-- Identity of a mouse glyph composite (`pixbuf_mouseleft1`, ...). -/
inductive MouseG
  | left1
  | left2
  | left3
  | middle1
  | right1
  | fwd
  | bwd
deriving DecidableEq

/-- Identity of a key badge: a parametric letter badge built from
`svg/key.svg` with the character substituted, or one of the pre-rendered
pixbufs of the `self.pixbufs` catalogue, keyed by its code. -/
inductive Glyph
  | letter (c : Char)
  | named (k : List Char)
deriving DecidableEq

/-- The five modifier badges, in the insertion order of `self.modifiers`. -/
inductive ModKey
  | alt
  | altgr
  | control
  | shift
  | capslock
deriving DecidableEq

/-- State of one `Modifier` image widget: GTK visibility plus the deferred
hide flag `self.tohide`. -/
structure Modifier where
  visible : Bool
  tohide : Bool
deriving DecidableEq

/-- The five `Modifier` widgets. -/
structure Modifiers where
  alt : Modifier
  altgr : Modifier
  control : Modifier
  shift : Modifier
  capslock : Modifier
deriving DecidableEq

def Modifiers.get (m : Modifiers) : ModKey → Modifier
  | ModKey.alt => m.alt
  | ModKey.altgr => m.altgr
  | ModKey.control => m.control
  | ModKey.shift => m.shift
  | ModKey.capslock => m.capslock

def Modifiers.setm (m : Modifiers) : ModKey → Modifier → Modifiers
  | ModKey.alt, v => { m with alt := v }
  | ModKey.altgr, v => { m with altgr := v }
  | ModKey.control, v => { m with control := v }
  | ModKey.shift, v => { m with shift := v }
  | ModKey.capslock, v => { m with capslock := v }

/-- Embedding of `Modifier.set`: on a truthy value show the widget, on a falsy value only
mark it to be hidden later. -/
def Modifier.set (m : Modifier) (s : Bool) : Modifier :=
  if s then { m with visible := true } else { m with tohide := true }

/-- One iteration of the hide-modifiers sweep body: `if m.tohide:
m.tohide = False; m.hide()`. -/
def sweepOne (m : Modifier) : Modifier :=
  if m.tohide then { visible := false, tohide := false } else m

/-- The `for k in self.modifiers` loop of the sweep. -/
def Modifiers.sweep (m : Modifiers) : Modifiers :=
  { alt := sweepOne m.alt, altgr := sweepOne m.altgr, control := sweepOne m.control,
    shift := sweepOne m.shift, capslock := sweepOne m.capslock }

/-- Embedding of `App.has_active_modifiers`, iterating in dict order. -/
def has_active_modifiers (m : Modifiers) : Bool :=
  m.alt.visible || m.altgr.visible || m.control.visible || m.shift.visible || m.capslock.visible

/-- Commands emitted to the external rendering and window layer during one
tick.  `sleep` records the `time.sleep(0.02)` pause of an idle tick. -/
inductive Cmd
  | moveIcon (x y : ℚ)
  | moveSplash (x y : ℚ)
  | showMouse (g : MouseG)
  | hideMouse
  | showKey (g : Option Glyph)
  | hideKey
  | sleep
deriving DecidableEq

/-- Input events delivered by the `xlib.XEventsListener`: `EV_MOV` carries a
pointer position, `EV_KEY` a code with a press value (1 press, 0 release),
`EV_REL` a wheel code and direction. -/
inductive XEvent
  | mov (x y : ℚ)
  | key (code : List Char) (value : ℕ)
  | rel (code : List Char) (value : ℤ)
deriving DecidableEq

/-- The configuration constants assigned at startup in `__main__`. -/
structure Config where
  show_all_keys : Bool
  distance : ℚ
  timeout : ℚ
  btnrepeat : ℚ
deriving DecidableEq

/-- The mutable fields of `App` that the idle loop reads and writes. -/
structure AppState where
  cx : ℚ
  cy : ℚ
  rx : ℚ
  ry : ℚ
  mousepos : ℚ × ℚ
  dragstate : ℕ
  dragxy : ℚ × ℚ
  btntimes : List ℚ
  keytime : ℚ
  keyVisible : Bool
  pixbuf : Option Glyph
  mods : Modifiers
deriving DecidableEq

def initMods : Modifiers :=
  { alt := ⟨false, false⟩, altgr := ⟨false, false⟩, control := ⟨false, false⟩,
    shift := ⟨false, false⟩, capslock := ⟨false, false⟩ }

/-- Embedding of `App.__init__`: identity direction vector `(1, 0)`, zero smoothed
deltas apart from `cx = 1`, pointer position seeded from the display,
everything hidden.  `dragxy` has no Python initial value; `(0, 0)` stands
for its undefined initial content, which is written before first use. -/
def initState (px py : ℚ) : AppState :=
  { cx := 1, cy := 0, rx := 1, ry := 0, mousepos := (px, py), dragstate := 0,
    dragxy := (0, 0), btntimes := [], keytime := 0, keyVisible := false,
    pixbuf := none, mods := initMods }

/-- Anchor of `check_resize` CASE 1 (motion mostly horizontal, `rx ≥ 0`). -/
def anchorCase1 {K : Type} [LinearOrderedField K] (off x y w h rx ry : K) : K × K :=
  (x - w - off, y - h / 2 - (h / 2 + off) * (ry / rx))

/-- Anchor of `check_resize` CASE 2 (motion mostly horizontal, `rx < 0`). -/
def anchorCase2 {K : Type} [LinearOrderedField K] (off x y w h rx ry : K) : K × K :=
  (x + off, y - h / 2 + (h / 2 + off) * (ry / rx))

/-- Anchor of `check_resize` CASE 3 (motion mostly vertical, `ry ≥ 0`). -/
def anchorCase3 {K : Type} [LinearOrderedField K] (off x y w h rx ry : K) : K × K :=
  (x - w / 2 - (w / 2 + off) * (rx / ry), y - h - off)

/-- Anchor of `check_resize` CASE 4 (motion mostly vertical, `ry < 0`). -/
def anchorCase4 {K : Type} [LinearOrderedField K] (off x y w h rx ry : K) : K × K :=
  (x - w / 2 + (w / 2 + off) * (rx / ry), y + off)

/-- The horizontal branch of the placement dispatch (`rx == 0` or
`|ry/rx| ≤ 1`), choosing between CASE 1 and CASE 2 on the sign of `rx`. -/
def hBranch {K : Type} [LinearOrderedField K] (off x y w h rx ry : K) : K × K :=
  if 0 ≤ rx then anchorCase1 off x y w h rx ry else anchorCase2 off x y w h rx ry

/-- The vertical branch of the placement dispatch, choosing between CASE 3
and CASE 4 on the sign of `ry`. -/
def vBranch {K : Type} [LinearOrderedField K] (off x y w h rx ry : K) : K × K :=
  if 0 ≤ ry then anchorCase3 off x y w h rx ry else anchorCase4 off x y w h rx ry

/-- Embedding of `App.check_resize`: position the splash window around the pointer.
`none` models the ZeroDivisionError that Python raises when the selected
branch divides by a zero component: CASE 1 divides by `rx` (reachable with
`rx == 0`, since the guarding condition short-circuits), CASE 3 and CASE 4
divide by `ry` (unreachable there, kept for faithfulness). -/
def check_resize (off x y w h rx ry : ℚ) : Option (ℚ × ℚ) :=
  if rx = 0 ∨ |ry / rx| ≤ 1 then
    if 0 ≤ rx then
      if rx = 0 then none else some (anchorCase1 off x y w h rx ry)
    else
      some (anchorCase2 off x y w h rx ry)
  else
    if 0 ≤ ry then
      if ry = 0 then none else some (anchorCase3 off x y w h rx ry)
    else
      some (anchorCase4 off x y w h rx ry)

/-- The spec formulas for the anchor, written from the specification text
(slope quadrant dispatch), total over `ℚ`. -/
def specAnchor (off x y w h rx ry : ℚ) : ℚ × ℚ :=
  if rx = 0 ∨ |ry / rx| ≤ 1 then
    if 0 ≤ rx then (x - w - off, y - h / 2 - (h / 2 + off) * (ry / rx))
    else (x + off, y - h / 2 + (h / 2 + off) * (ry / rx))
  else
    if 0 ≤ ry then (x - w / 2 - (w / 2 + off) * (rx / ry), y - h - off)
    else (x - w / 2 + (w / 2 + off) * (rx / ry), y + off)

/-- Keys of the `self.pixbufs` dictionary, in insertion order. -/
def pixkeys : List (List Char) :=
  ["KEY_BACKSPACE".toList, "KEY_ESCAPE".toList, "KEY_TAB".toList, "KEY_SPACE".toList,
   "KEY_INSERT".toList, "KEY_DELETE".toList, "KEY_HOME".toList, "KEY_END".toList,
   "KEY_PRIOR".toList, "KEY_PAGE_DOWN".toList,
   "KEY_LEFT".toList, "KEY_UP".toList, "KEY_RIGHT".toList, "KEY_DOWN".toList,
   "KEY_KP_INSER".toList, "KEY_KP_END".toList, "KEY_KP_DOWN".toList,
   "KEY_KP_PAGE_DOWN".toList, "KEY_KP_LEFT".toList, "KEY_KP_BEGIN".toList,
   "KEY_KP_RIGHT".toList, "KEY_KP_HOME".toList, "KEY_KP_UP".toList,
   "KEY_KP_PRIOR".toList, "KEY_KP_DELETE".toList, "KEY_KP_ENTER".toList,
   "KEY_KP_ADD".toList, "KEY_KP_SUBTRACT".toList, "KEY_KP_MULTIPLY".toList,
   "KEY_KP_DIVIDE".toList, "KEY_NUM_LOCK".toList,
   "KEY_TWOSUPERIOR".toList, "KEY_AMPERSAND".toList, "KEY_EACUTE".toList,
   "KEY_QUOTEDBL".toList, "KEY_QUOTERIGHT".toList, "KEY_PARENLEFT".toList,
   "KEY_MINUS".toList, "KEY_EGRAVE".toList, "KEY_UNDERSCORE".toList,
   "KEY_CCEDILLA".toList, "KEY_AGRAVE".toList, "KEY_PARENRIGHT".toList,
   "KEY_EQUAL".toList,
   "KEY_RETURN".toList, "KEY_DUNNO".toList, "KEY_DOLLAR".toList, "KEY_UGRAVE".toList,
   "KEY_ASTERISK".toList, "KEY_LESS".toList, "KEY_COMMA".toList, "KEY_SEMICOLON".toList,
   "KEY_COLON".toList, "KEY_EXCLAM".toList,
   "KEY_SUPER_R".toList, "KEY_SUPER_L".toList, "KEY_MENU".toList]

/-- Python `len(code)==5 and code[4]>="A" and code[4]<="Z"`. -/
def isLetter5 (code : List Char) : Bool :=
  (code.length == 5) && decide ('A' ≤ code.getD 4 ' ') && decide (code.getD 4 ' ' ≤ 'Z')

/-- Embedding of `App.setpixbuf`: first component is the return value, second the update
to `self.pixbuf` (`none` when the Python code leaves it untouched).  The
parametric letter pixbuf is built only when `doit` is truthy; the catalogue
scan takes the first key that is a prefix of the code. -/
def setpixbuf (show_all active : Bool) (code : List Char) (doit : ℕ) : Bool × Option Glyph :=
  if startswith code ("KEY_".toList) && (show_all || active) && isLetter5 code then
    (true, if doit ≠ 0 then some (Glyph.letter (code.getD 4 ' ')) else none)
  else
    match pixkeys.find? (fun k => startswith code k) with
    | some k => (true, some (Glyph.named k))
    | none => (false, none)

/-- Which modifier badge an `EV_KEY` code addresses, mirroring the elif
chain at the top of the key branch of `on_idle`. -/
def modkeyOf (code : List Char) : Option ModKey :=
  if startswith code ("KEY_ALT".toList) then some ModKey.alt
  else if code = "KEY_ISO_LEVEL3_SHIFT".toList then some ModKey.altgr
  else if startswith code ("KEY_CONTROL".toList) then some ModKey.control
  else if startswith code ("KEY_SHIFT".toList) then some ModKey.shift
  else if startswith code ("KEY_CAPS_LOCK".toList) then some ModKey.capslock
  else none

/-- The `EV_KEY` branch of `on_idle` (modifiers, then normal keys, then
mouse buttons, then the logging fallback).  Total: no branch divides. -/
def handle_key (cfg : Config) (t : ℚ) (code : List Char) (v : ℕ) (s : AppState) :
    AppState × List Cmd :=
  match modkeyOf code with
  | some k => ({ s with mods := s.mods.setm k ((s.mods.get k).set (v != 0)) }, [])
  | none =>
    match setpixbuf cfg.show_all_keys (has_active_modifiers s.mods) code v with
    | (true, pb) =>
      let s1 : AppState := { s with pixbuf := match pb with | some g => some g | none => s.pixbuf }
      if v = 1 then
        ({ s1 with keytime := t, keyVisible := true }, [Cmd.showKey s1.pixbuf])
      else (s1, [])
    | (false, _) =>
      if startswith code ("BTN_LEFT".toList) then
        if v = 1 then
          if s.btntimes.length = 2 ∧ t - s.btntimes.getD 0 0 < cfg.btnrepeat then
            ({ s with btntimes := s.btntimes ++ [t] }, [Cmd.showMouse MouseG.left2])
          else if s.btntimes.length = 4 ∧ t - s.btntimes.getD 2 0 < cfg.btnrepeat then
            ({ s with btntimes := s.btntimes ++ [t] }, [Cmd.showMouse MouseG.left3])
          else
            ({ s with btntimes := [t] }, [Cmd.showMouse MouseG.left1])
        else
          ({ s with btntimes := s.btntimes ++ [t] }, [])
      else if startswith code ("BTN_MIDDLE".toList) then
        if v = 1 then ({ s with btntimes := [t] }, [Cmd.showMouse MouseG.middle1])
        else ({ s with btntimes := s.btntimes ++ [t] }, [])
      else if startswith code ("BTN_RIGHT".toList) then
        if v = 1 then ({ s with btntimes := [t] }, [Cmd.showMouse MouseG.right1])
        else ({ s with btntimes := s.btntimes ++ [t] }, [])
      else
        (s, [])

/-- The `EV_REL` (mouse wheel) branch of `on_idle`. -/
def handle_rel (t : ℚ) (code : List Char) (v : ℤ) (s : AppState) : AppState × List Cmd :=
  if startswith code ("REL_WHEEL".toList) then
    if v = 1 then ({ s with btntimes := [t, t + 1/10] }, [Cmd.showMouse MouseG.fwd])
    else if v = -1 then ({ s with btntimes := [t, t + 1/10] }, [Cmd.showMouse MouseG.bwd])
    else (s, [])
  else (s, [])

/-- The low-pass filter and normalization part of the `EV_MOV` branch
(reached only when no drag is in progress).  `none` models the
ZeroDivisionError of `self.cx / r` when `r = math.sqrt(cx² + cy²) == 0`,
which happens exactly when both smoothed deltas are zero, and the error
`check_resize` may raise in turn. -/
def mov_filter (sq : ℚ → ℚ) (cfg : Config) (w h x y : ℚ) (s : AppState) :
    Option (AppState × List Cmd) :=
  let cx := (x - s.mousepos.1) * 1 / 64 + s.cx * 63 / 64
  let cy := (y - s.mousepos.2) * 1 / 64 + s.cy * 63 / 64
  if cx * cx + cy * cy = 0 then none
  else
    let r := sq (cx * cx + cy * cy)
    match check_resize cfg.distance x y w h (cx / r) (cy / r) with
    | none => none
    | some a =>
      some ({ s with mousepos := (x, y), cx := cx, cy := cy, rx := cx / r, ry := cy / r },
            [Cmd.moveSplash a.1 a.2])

/-- The `EV_MOV` branch of `on_idle`: the pointer position is stored first;
while a drag is in progress the icon window follows the pointer and the
filter state is left alone. -/
def handle_mov (sq : ℚ → ℚ) (cfg : Config) (w h x y : ℚ) (s : AppState) :
    Option (AppState × List Cmd) :=
  if 0 < s.dragstate then
    some ({ s with mousepos := (x, y), dragstate := s.dragstate + 1 },
          [Cmd.moveIcon (x - s.dragxy.1) (y - s.dragxy.2)])
  else
    mov_filter sq cfg w h x y s

/-- Whether the mouse-glyph hide condition of the timeout sweep holds. -/
def mouseDue (cfg : Config) (t : ℚ) (s : AppState) : Bool :=
  decide (s.btntimes.length % 2 = 0 ∧ 0 < s.btntimes.length ∧
          cfg.timeout < t - s.btntimes.getD (s.btntimes.length - 2) 0)

/-- The timeout sweep run by `on_idle` when no event is available.  Note the
early `return True` after hiding the mouse glyph: the key and modifier
expirations and the `time.sleep(0.02)` pause are skipped on that tick. -/
def sweep_tick (cfg : Config) (t : ℚ) (s : AppState) : AppState × List Cmd :=
  if s.btntimes.length % 2 = 0 ∧ 0 < s.btntimes.length ∧
     cfg.timeout < t - s.btntimes.getD (s.btntimes.length - 2) 0 then
    ({ s with btntimes := [] }, [Cmd.hideMouse])
  else
    let p := if 0 < s.keytime ∧ cfg.timeout < t - s.keytime
             then ({ s with keytime := 0, keyVisible := false }, [Cmd.hideKey])
             else (s, ([] : List Cmd))
    let s2 := if p.1.keytime = 0 then { p.1 with mods := p.1.mods.sweep } else p.1
    (s2, p.2 ++ [Cmd.sleep])

/-- Embedding of `App.on_idle`: one tick of the idle cycle driver, given the current
time, the polled event (`none` when the listener has nothing) and the
current splash window size `(w, h)`.  A `none` result models an uncaught
exception in the handler. -/
def on_idle (sq : ℚ → ℚ) (cfg : Config) (w h t : ℚ) (ev : Option XEvent) (s : AppState) :
    Option (AppState × List Cmd) :=
  match ev with
  | some (XEvent.mov x y) => handle_mov sq cfg w h x y s
  | some (XEvent.key code v) => some (handle_key cfg t code v s)
  | some (XEvent.rel code v) => some (handle_rel t code v s)
  | none => some (sweep_tick cfg t s)

/-- Embedding of `App.on_iconbtnpress`: arm a drag of the icon window, remembering the
pointer offset inside the window. -/
def on_iconbtnpress (button : ℕ) (xy : ℚ × ℚ) (s : AppState) : AppState :=
  if button = 1 then { s with dragxy := xy, dragstate := 1 } else s

/-- Embedding of `App.on_iconbtnrelease`: the second component is `true` when the
handler calls `exit(0)` (a bare click without drag); otherwise the drag
state is reset. -/
def on_iconbtnrelease (button : ℕ) (s : AppState) : AppState × Bool :=
  if button = 1 ∧ s.dragstate < 2 then (s, true)
  else ({ s with dragstate := 0 }, false)

/-- Run a list of timed inputs through `on_idle`, collecting commands. -/
def runEv (sq : ℚ → ℚ) (cfg : Config) (w h : ℚ) :
    List (ℚ × Option XEvent) → AppState → Option (AppState × List Cmd)
  | [], s => some (s, [])
  | (t, ev) :: rest, s =>
    match on_idle sq cfg w h t ev s with
    | none => none
    | some (s1, c1) =>
      match runEv sq cfg w h rest s1 with
      | none => none
      | some (s2, c2) => some (s2, c1 ++ c2)

/-- Run a list of timed motion events through `on_idle`, keeping only the
final state. -/
def runMotions (sq : ℚ → ℚ) (cfg : Config) (w h : ℚ) :
    List (ℚ × ℚ × ℚ) → AppState → Option AppState
  | [], s => some s
  | (_t, x, y) :: rest, s =>
    match on_idle sq cfg w h _t (some (XEvent.mov x y)) s with
    | none => none
    | some (s1, _) => runMotions sq cfg w h rest s1

/-- The click classification rule as the specification states it: exactly
two recorded timestamps within the click window mean a second click,
exactly four mean a third click, anything else restarts the history. -/
def specClassify (window : ℚ) (times : List ℚ) (now : ℚ) : MouseG × List ℚ :=
  if times.length = 2 ∧ now - times.getD 0 0 < window then (MouseG.left2, times ++ [now])
  else if times.length = 4 ∧ now - times.getD 2 0 < window then (MouseG.left3, times ++ [now])
  else (MouseG.left1, [now])

/-- A mouse-button release event (left, middle or right, value not 1). -/
def isRelease : Option XEvent → Bool
  | some (XEvent.key code v) =>
    (startswith code ("BTN_LEFT".toList) || startswith code ("BTN_MIDDLE".toList) ||
     startswith code ("BTN_RIGHT".toList)) && v != 1
  | _ => false

/-- Well-formed runs of the idle loop: any interleaving of ticks whose
button release events are delivered only while the press parity says the
button is down (odd history length), as a physical input source does. -/
inductive WFRun (sq : ℚ → ℚ) (cfg : Config) (w h : ℚ) : AppState → AppState → Prop
  | refl (s : AppState) : WFRun sq cfg w h s s
  | step {s1 s2 s3 : AppState} {t : ℚ} {ev : Option XEvent} {cmds : List Cmd} :
      WFRun sq cfg w h s1 s2 →
      (isRelease ev = true → s2.btntimes.length % 2 = 1) →
      on_idle sq cfg w h t ev s2 = some (s3, cmds) →
      WFRun sq cfg w h s1 s3

/-- The mouse glyph of a command, for extracting classification traces. -/
def mouseOf : Cmd → Option MouseG
  | Cmd.showMouse g => some g
  | _ => none

/-- A stand-in for `math.sqrt` usable in concrete evaluations; the claims
proved below never depend on its values away from the guard conditions. -/
def idsq : ℚ → ℚ := fun q => q

/-- The configuration installed by `__main__` (`show_all_keys = True`,
`distance = 10`, `timeout = 0.25`, `btnrepeat = 0.2`). -/
def cfgX : Config :=
  { show_all_keys := true, distance := 10, timeout := 1/4, btnrepeat := 1/5 }

def s10 : AppState := { initState 0 0 with dragstate := 1, dragxy := (2, 3) }

def s5W : AppState :=
  { initState 0 0 with keytime := 1, keyVisible := true,
                       mods := { initMods with shift := ⟨true, true⟩ } }

/-- A state whose mouse glyph and key badge are both past their timeout at
time 2 under the startup configuration. -/
def s7C : AppState :=
  { initState 0 0 with btntimes := [0, 1/100], keytime := 1, keyVisible := true }

def s8W : AppState :=
  { initState 0 0 with dragxy := (0, 0), dragstate := 2, mousepos := (5, 5) }

theorem startswith_le : ∀ (s p : List Char), startswith s p = true → p.length ≤ s.length := by
  intro s p
  induction p generalizing s with
  | nil => intro _; simp
  | cons a ps ih =>
    intro h
    cases s with
    | nil => simp [startswith] at h
    | cons b bs =>
      simp only [startswith, Bool.and_eq_true] at h
      have := ih bs h.2
      simp [List.length_cons]
      omega

theorem startswith_false_of_long (code pre : List Char) (h : code.length < pre.length) :
    startswith code pre = false := by
  cases hsw : startswith code pre
  · rfl
  · exact absurd (startswith_le _ _ hsw) (by omega)

theorem pixkeys_long : ∀ k ∈ pixkeys, 6 ≤ k.length := by decide

theorem letter_find_none (c : Char) :
    pixkeys.find? (fun k => startswith ("KEY_".toList ++ [c]) k) = none := by
  rw [List.find?_eq_none]
  intro k hk
  have h6 := pixkeys_long k hk
  simp only [Bool.not_eq_true]
  exact startswith_false_of_long _ _ (by simp; omega)

theorem letter_modkey_none (c : Char) : modkeyOf ("KEY_".toList ++ [c]) = none := by
  have h1 : startswith ("KEY_".toList ++ [c]) ("KEY_ALT".toList) = false :=
    startswith_false_of_long _ _ (by simp)
  have h2 : ("KEY_".toList ++ [c]) ≠ "KEY_ISO_LEVEL3_SHIFT".toList := by
    intro h
    have := congrArg List.length h
    simp at this
  have h3 : startswith ("KEY_".toList ++ [c]) ("KEY_CONTROL".toList) = false :=
    startswith_false_of_long _ _ (by simp)
  have h4 : startswith ("KEY_".toList ++ [c]) ("KEY_SHIFT".toList) = false :=
    startswith_false_of_long _ _ (by simp)
  have h5 : startswith ("KEY_".toList ++ [c]) ("KEY_CAPS_LOCK".toList) = false :=
    startswith_false_of_long _ _ (by simp)
  simp at h1 h3 h4 h5
  simp [modkeyOf, h1, h2, h3, h4, h5]

example : on_idle idsq cfgX 6 4 1 none (initState 0 0) = some (initState 0 0, [Cmd.sleep]) := by
  decide

example : modkeyOf ("BTN_LEFT".toList) = none := by decide

example : ∀ sa am v, setpixbuf sa am ("BTN_LEFT".toList) v = (false, none) := by
  intro sa am v
  unfold setpixbuf
  rw [show startswith ("BTN_LEFT".toList) ("KEY_".toList) = false from by decide]
  simp only [Bool.false_and, Bool.false_eq_true, if_false]
  decide

theorem setpixbuf_btnleft (sa am : Bool) (v : ℕ) :
    setpixbuf sa am ("BTN_LEFT".toList) v = (false, none) := by
  unfold setpixbuf
  rw [show startswith ("BTN_LEFT".toList) ("KEY_".toList) = false from by decide]
  simp only [Bool.false_and, Bool.false_eq_true, if_false]
  decide

/-- C10: while a drag is in progress, a Motion event increments the drag
counter, stores the new pointer position, moves only the icon window, and
leaves the smoothed deltas and the unit vector untouched. -/
theorem c10_drag_motion (sq : ℚ → ℚ) (cfg : Config) (w h t x y : ℚ) (s : AppState)
    (hd : s.dragstate ≠ 0) :
    on_idle sq cfg w h t (some (XEvent.mov x y)) s =
      some ({ s with mousepos := (x, y), dragstate := s.dragstate + 1 },
            [Cmd.moveIcon (x - s.dragxy.1) (y - s.dragxy.2)]) := by
  have h0 : 0 < s.dragstate := Nat.pos_of_ne_zero hd
  simp [on_idle, handle_mov, h0]

theorem c10_witness :
    s10.dragstate ≠ 0 ∧
    on_idle idsq cfgX 6 4 1 (some (XEvent.mov 10 20)) s10 =
      some ({ s10 with mousepos := (10, 20), dragstate := s10.dragstate + 1 },
            [Cmd.moveIcon (10 - s10.dragxy.1) (20 - s10.dragxy.2)]) :=
  ⟨by decide, c10_drag_motion idsq cfgX 6 4 1 10 20 s10 (by decide)⟩

/-- C1: from the startup state, a Motion event 63 pixels to the left makes
both smoothed deltas exactly zero, `r = sqrt 0 = 0`, and the unguarded
normalization `rx = cx / r` raises ZeroDivisionError (modelled by `none`):
the guard the claim describes does not exist in the code. -/
theorem c1_zero_divide (sq : ℚ → ℚ) (cfg : Config) (w h t ox oy : ℚ) :
    on_idle sq cfg w h t (some (XEvent.mov (ox - 63) oy)) (initState ox oy) = none := by
  show handle_mov sq cfg w h (ox - 63) oy (initState ox oy) = none
  unfold handle_mov
  rw [if_neg (by simp [initState])]
  simp only [mov_filter, initState]
  split
  · rfl
  · next hcond =>
    exact absurd (by ring) hcond

/-- C3 counterexample: at the unit vector `(rx, ry) = (0, 1)` the
horizontal branch is selected and its slope division raises
ZeroDivisionError, so the placement is not defined at `rx == 0`. -/
theorem c3_rx_zero_fault :
    ((0 : ℚ)^2 + (1 : ℚ)^2 = 1) ∧ check_resize 10 0 0 100 50 0 1 = none := by
  constructor
  · norm_num
  · decide

/-- C3 (amended): for every direction with `rx ≠ 0` the emitted anchor is
exactly the spec quadrant formula. -/
theorem c3_quadrant_formulas (off x y w h rx ry : ℚ) (hrx : rx ≠ 0) :
    check_resize off x y w h rx ry = some (specAnchor off x y w h rx ry) := by
  unfold check_resize specAnchor anchorCase1 anchorCase2 anchorCase3 anchorCase4
  by_cases h1 : rx = 0 ∨ |ry / rx| ≤ 1
  · rw [if_pos h1, if_pos h1]
    by_cases h2 : 0 ≤ rx
    · rw [if_pos h2, if_pos h2, if_neg hrx]
    · rw [if_neg h2, if_neg h2]
  · have hry : ry ≠ 0 := by
      intro h0
      exact h1 (Or.inr (by rw [h0, zero_div, abs_zero]; norm_num))
    rw [if_neg h1, if_neg h1]
    by_cases h2 : 0 ≤ ry
    · rw [if_pos h2, if_pos h2, if_neg hry]
    · rw [if_neg h2, if_neg h2]

theorem c3_witness :
    ((1 : ℚ) ≠ 0) ∧ check_resize 10 0 0 6 4 1 0 = some (specAnchor 10 0 0 6 4 1 0) :=
  ⟨by norm_num, c3_quadrant_formulas 10 0 0 6 4 1 0 (by norm_num)⟩

/-- C4: at the quadrant boundaries `|ry/rx| = 1` the horizontal and the
vertical branch formulas yield the same anchor, for every unit vector and
fixed pointer position, window size and standoff. -/
theorem c4_boundary_continuity (off x y w h rx ry : ℝ)
    (hu : rx^2 + ry^2 = 1) (hs : |ry / rx| = 1) :
    hBranch off x y w h rx ry = vBranch off x y w h rx ry := by
  have hrx : rx ≠ 0 := by
    rintro rfl
    rw [div_zero, abs_zero] at hs
    exact zero_ne_one hs
  rcases (abs_eq (by norm_num : (0:ℝ) ≤ 1)).mp hs with hq | hq
  · have hyx : ry = rx := by
      field_simp at hq
      exact hq
    subst hyx
    unfold hBranch vBranch anchorCase1 anchorCase2 anchorCase3 anchorCase4
    by_cases h2 : 0 ≤ ry
    · rw [if_pos h2, if_pos h2, div_self hrx]
      simp only [Prod.mk.injEq]
      constructor <;> ring
    · rw [if_neg h2, if_neg h2, div_self hrx]
      simp only [Prod.mk.injEq]
      constructor <;> ring
  · have hyx : ry = -rx := by
      field_simp at hq
      linarith
    subst hyx
    unfold hBranch vBranch anchorCase1 anchorCase2 anchorCase3 anchorCase4
    have e1 : -rx / rx = -1 := by rw [neg_div, div_self hrx]
    have e2 : rx / -rx = -1 := by rw [div_neg, div_self hrx]
    by_cases h2 : 0 ≤ rx
    · have h2' : ¬ (0 ≤ -rx) := by
        have hlt : 0 < rx := lt_of_le_of_ne h2 (Ne.symm hrx)
        push_neg
        linarith
      rw [if_pos h2, if_neg h2', e1, e2]
      simp only [Prod.mk.injEq]
      constructor <;> ring
    · have h2' : 0 ≤ -rx := by
        push_neg at h2
        linarith
      rw [if_neg h2, if_pos h2', e1, e2]
      simp only [Prod.mk.injEq]
      constructor <;> ring

theorem c4_witness :
    (((Real.sqrt 2)⁻¹)^2 + ((Real.sqrt 2)⁻¹)^2 = 1) ∧
    |((Real.sqrt 2)⁻¹) / ((Real.sqrt 2)⁻¹)| = 1 ∧
    hBranch (10:ℝ) 0 0 6 4 ((Real.sqrt 2)⁻¹) ((Real.sqrt 2)⁻¹) =
      vBranch (10:ℝ) 0 0 6 4 ((Real.sqrt 2)⁻¹) ((Real.sqrt 2)⁻¹) := by
  have h2 : Real.sqrt 2 ≠ 0 := ne_of_gt (Real.sqrt_pos.mpr (by norm_num))
  have ha : ((Real.sqrt 2)⁻¹)^2 + ((Real.sqrt 2)⁻¹)^2 = 1 := by
    rw [inv_pow, Real.sq_sqrt (by norm_num : (0:ℝ) ≤ 2)]
    norm_num
  have hb : |((Real.sqrt 2)⁻¹) / ((Real.sqrt 2)⁻¹)| = 1 := by
    rw [div_self (inv_ne_zero h2), abs_one]
  exact ⟨ha, hb, c4_boundary_continuity 10 0 0 6 4 _ _ ha hb⟩

theorem leftpress_eq (sq : ℚ → ℚ) (cfg : Config) (w h t : ℚ) (s : AppState) :
    on_idle sq cfg w h t (some (XEvent.key ("BTN_LEFT".toList) 1)) s =
      some ({ s with btntimes := (specClassify cfg.btnrepeat s.btntimes t).2 },
            [Cmd.showMouse (specClassify cfg.btnrepeat s.btntimes t).1]) := by
  have hm : modkeyOf ("BTN_LEFT".toList) = none := by decide
  have hs : setpixbuf cfg.show_all_keys (has_active_modifiers s.mods) ("BTN_LEFT".toList) 1 =
      (false, none) := setpixbuf_btnleft _ _ _
  have hb : startswith ("BTN_LEFT".toList) ("BTN_LEFT".toList) = true := by decide
  show some (handle_key cfg t ("BTN_LEFT".toList) 1 s) = _
  rw [handle_key, hm, hs]
  simp only [hb, if_true]
  unfold specClassify
  split_ifs <;> rfl

theorem leftrelease_eq (sq : ℚ → ℚ) (cfg : Config) (w h t : ℚ) (s : AppState) :
    on_idle sq cfg w h t (some (XEvent.key ("BTN_LEFT".toList) 0)) s =
      some ({ s with btntimes := s.btntimes ++ [t] }, []) := by
  have hm : modkeyOf ("BTN_LEFT".toList) = none := by decide
  have hs : setpixbuf cfg.show_all_keys (has_active_modifiers s.mods) ("BTN_LEFT".toList) 0 =
      (false, none) := setpixbuf_btnleft _ _ _
  have hb : startswith ("BTN_LEFT".toList) ("BTN_LEFT".toList) = true := by decide
  show some (handle_key cfg t ("BTN_LEFT".toList) 0 s) = _
  rw [handle_key, hm, hs]
  simp only [hb, if_true]
  rfl

/-- C2: a primary-button press is classified exactly as the specification
states (two prior timestamps within the click window give the double-click
glyph, four give the triple-click glyph, anything else restarts with the
single-click glyph), and the concrete scenario with presses at
`t = 0, 0.05, 0.15, 0.5` and interleaved releases under a click window of
`0.2` classifies them as single, double, triple, single. -/
theorem c2_click_classification (sq : ℚ → ℚ) (cfg : Config) (w h t : ℚ) (s : AppState) :
    on_idle sq cfg w h t (some (XEvent.key ("BTN_LEFT".toList) 1)) s =
      some ({ s with btntimes := (specClassify cfg.btnrepeat s.btntimes t).2 },
            [Cmd.showMouse (specClassify cfg.btnrepeat s.btntimes t).1]) ∧
    (runEv idsq cfgX 6 4
        [(0, some (XEvent.key ("BTN_LEFT".toList) 1)),
         (1/50, some (XEvent.key ("BTN_LEFT".toList) 0)),
         (1/20, some (XEvent.key ("BTN_LEFT".toList) 1)),
         (7/100, some (XEvent.key ("BTN_LEFT".toList) 0)),
         (3/20, some (XEvent.key ("BTN_LEFT".toList) 1)),
         (17/100, some (XEvent.key ("BTN_LEFT".toList) 0)),
         (1/2, some (XEvent.key ("BTN_LEFT".toList) 1))]
        (initState 0 0)).map (fun p => p.2.filterMap mouseOf) =
      some [MouseG.left1, MouseG.left2, MouseG.left3, MouseG.left1] := by
  refine ⟨leftpress_eq sq cfg w h t s, ?_⟩
  simp only [runEv, leftpress_eq, leftrelease_eq]
  norm_num [specClassify, cfgX, initState]
  decide

/-- C6: a plain letter key press is suppressed when verbose mode is off and
no modifier badge is visible, and otherwise emits exactly one ShowGlyph
with the parametric letter badge and starts the key badge timer at the
current time (expiring at `now + timeout`). -/
theorem c6_letter_gate (sq : ℚ → ℚ) (cfg : Config) (w h t : ℚ) (s : AppState) (c : Char)
    (hA : 'A' ≤ c) (hZ : c ≤ 'Z') :
    (cfg.show_all_keys = false → has_active_modifiers s.mods = false →
       on_idle sq cfg w h t (some (XEvent.key ("KEY_".toList ++ [c]) 1)) s = some (s, [])) ∧
    (cfg.show_all_keys = true ∨ has_active_modifiers s.mods = true →
       on_idle sq cfg w h t (some (XEvent.key ("KEY_".toList ++ [c]) 1)) s =
         some ({ s with pixbuf := some (Glyph.letter c), keytime := t, keyVisible := true },
               [Cmd.showKey (some (Glyph.letter c))])) := by
  have hmk := letter_modkey_none c
  have hsw : startswith ("KEY_".toList ++ [c]) ("KEY_".toList) = true := by simp [startswith]
  have hl5 : isLetter5 ("KEY_".toList ++ [c]) = true := by
    simp only [isLetter5, List.getD]
    norm_num [decide_eq_true hA, decide_eq_true hZ]
  constructor
  · intro hsa ham
    show some (handle_key cfg t _ 1 s) = _
    rw [handle_key, hmk]
    unfold setpixbuf
    rw [hsa, ham, hsw, letter_find_none c]
    have hbl : startswith ("KEY_".toList ++ [c]) ("BTN_LEFT".toList) = false := by
      simp [startswith]
    have hbm : startswith ("KEY_".toList ++ [c]) ("BTN_MIDDLE".toList) = false := by
      simp [startswith]
    have hbr : startswith ("KEY_".toList ++ [c]) ("BTN_RIGHT".toList) = false := by
      simp [startswith]
    simp only [Bool.or_self, Bool.and_false, Bool.false_and, Bool.false_eq_true, if_false,
               hbl, hbm, hbr]
  · intro hor
    show some (handle_key cfg t _ 1 s) = _
    rw [handle_key, hmk]
    unfold setpixbuf
    rw [hsw, hl5]
    have hcond : (true && (cfg.show_all_keys || has_active_modifiers s.mods) && true) = true := by
      rcases hor with hx | hx <;> simp [hx]
    rw [hcond]
    simp only [if_true]
    rfl

theorem c6_witness :
    ('A' ≤ 'Q' ∧ 'Q' ≤ 'Z' ∧ (cfgX.show_all_keys = true ∨
        has_active_modifiers (initState 0 0).mods = true)) ∧
    on_idle idsq cfgX 6 4 1 (some (XEvent.key ("KEY_".toList ++ ['Q']) 1)) (initState 0 0) =
      some ({ initState 0 0 with pixbuf := some (Glyph.letter 'Q'), keytime := 1,
                                 keyVisible := true },
            [Cmd.showKey (some (Glyph.letter 'Q'))]) :=
  ⟨⟨by decide, by decide, Or.inl rfl⟩,
   (c6_letter_gate idsq cfgX 6 4 1 (initState 0 0) 'Q' (by decide) (by decide)).2 (Or.inl rfl)⟩

theorem get_sweep (m : Modifiers) (k : ModKey) : (m.sweep).get k = sweepOne (m.get k) := by
  cases k <;> rfl

theorem set_keeps_visible (m : Modifier) (b : Bool) (hv : m.visible = true) :
    (m.set b).visible = true := by
  unfold Modifier.set
  split <;> simp [hv]

theorem setm_get_keeps_visible (ms : Modifiers) (k k' : ModKey) (b : Bool)
    (hv : (ms.get k).visible = true) :
    ((ms.setm k' ((ms.get k').set b)).get k).visible = true := by
  cases k <;> cases k' <;>
    simp only [Modifiers.setm, Modifiers.get] at * <;>
    first
      | exact set_keeps_visible _ _ hv
      | exact hv

theorem sweep_tick_eq_a (cfg : Config) (t : ℚ) (s : AppState)
    (hm : s.btntimes.length % 2 = 0 ∧ 0 < s.btntimes.length ∧
      cfg.timeout < t - s.btntimes.getD (s.btntimes.length - 2) 0) :
    sweep_tick cfg t s = ({ s with btntimes := [] }, [Cmd.hideMouse]) := by
  rw [sweep_tick, if_pos hm]

theorem sweep_tick_eq_b (cfg : Config) (t : ℚ) (s : AppState)
    (hm : ¬ (s.btntimes.length % 2 = 0 ∧ 0 < s.btntimes.length ∧
      cfg.timeout < t - s.btntimes.getD (s.btntimes.length - 2) 0))
    (hkc : 0 < s.keytime ∧ cfg.timeout < t - s.keytime) :
    sweep_tick cfg t s =
      ({ s with keytime := 0, keyVisible := false, mods := s.mods.sweep },
       [Cmd.hideKey, Cmd.sleep]) := by
  rw [sweep_tick, if_neg hm, if_pos hkc]
  simp

theorem sweep_tick_eq_c (cfg : Config) (t : ℚ) (s : AppState)
    (hm : ¬ (s.btntimes.length % 2 = 0 ∧ 0 < s.btntimes.length ∧
      cfg.timeout < t - s.btntimes.getD (s.btntimes.length - 2) 0))
    (hkc : ¬ (0 < s.keytime ∧ cfg.timeout < t - s.keytime))
    (hz : s.keytime = 0) :
    sweep_tick cfg t s = ({ s with mods := s.mods.sweep }, [Cmd.sleep]) := by
  rw [sweep_tick, if_neg hm, if_neg hkc]
  simp [hz]

theorem sweep_tick_eq_d (cfg : Config) (t : ℚ) (s : AppState)
    (hm : ¬ (s.btntimes.length % 2 = 0 ∧ 0 < s.btntimes.length ∧
      cfg.timeout < t - s.btntimes.getD (s.btntimes.length - 2) 0))
    (hkc : ¬ (0 < s.keytime ∧ cfg.timeout < t - s.keytime))
    (hz : s.keytime ≠ 0) :
    sweep_tick cfg t s = (s, [Cmd.sleep]) := by
  rw [sweep_tick, if_neg hm, if_neg hkc]
  simp [hz]

theorem sweep_tick_mods_unchanged (cfg : Config) (t : ℚ) (s : AppState)
    (hk : s.keytime ≠ 0) (hle : t - s.keytime ≤ cfg.timeout) (k : ModKey) :
    ((sweep_tick cfg t s).1.mods.get k) = s.mods.get k := by
  by_cases hm : (s.btntimes.length % 2 = 0 ∧ 0 < s.btntimes.length ∧
      cfg.timeout < t - s.btntimes.getD (s.btntimes.length - 2) 0)
  · rw [sweep_tick_eq_a cfg t s hm]
  · have hkc : ¬ (0 < s.keytime ∧ cfg.timeout < t - s.keytime) := by
      rintro ⟨-, hgt⟩
      exact absurd hgt (not_lt.mpr hle)
    rw [sweep_tick_eq_d cfg t s hm hkc hk]

theorem sweep_tick_keytime_of_hidden (cfg : Config) (t : ℚ) (s : AppState) (k : ModKey)
    (hvis : (s.mods.get k).visible = true)
    (hhid : ((sweep_tick cfg t s).1.mods.get k).visible = false) :
    (sweep_tick cfg t s).1.keytime = 0 := by
  by_cases hm : (s.btntimes.length % 2 = 0 ∧ 0 < s.btntimes.length ∧
      cfg.timeout < t - s.btntimes.getD (s.btntimes.length - 2) 0)
  · rw [sweep_tick_eq_a cfg t s hm] at hhid
    simp at hhid
    rw [hvis] at hhid
    exact absurd hhid (by simp)
  · by_cases hkc : (0 < s.keytime ∧ cfg.timeout < t - s.keytime)
    · rw [sweep_tick_eq_b cfg t s hm hkc]
    · by_cases hz : s.keytime = 0
      · rw [sweep_tick_eq_c cfg t s hm hkc hz]
        exact hz
      · rw [sweep_tick_eq_d cfg t s hm hkc hz] at hhid
        rw [hvis] at hhid
        exact absurd hhid (by simp)

theorem handle_key_keeps_visible (cfg : Config) (t : ℚ) (code : List Char) (v : ℕ)
    (s : AppState) (k : ModKey) (hv : (s.mods.get k).visible = true) :
    ((handle_key cfg t code v s).1.mods.get k).visible = true := by
  rw [handle_key]
  split
  · exact setm_get_keeps_visible s.mods k _ _ hv
  · split
    all_goals repeat' split
    all_goals simp [hv]

theorem event_tick_keeps_visible (sq : ℚ → ℚ) (cfg : Config) (w h t : ℚ) (s s' : AppState)
    (cmds : List Cmd) (k : ModKey) (e : XEvent)
    (hstep : on_idle sq cfg w h t (some e) s = some (s', cmds))
    (hv : (s.mods.get k).visible = true) : ((s'.mods.get k).visible = true) := by
  cases e with
  | mov x y =>
    simp only [on_idle, handle_mov] at hstep
    split at hstep
    · obtain ⟨rfl, -⟩ := Prod.mk.injEq .. |>.mp (Option.some.inj hstep).symm
      exact hv
    · simp only [mov_filter] at hstep
      split at hstep
      · exact absurd hstep (by simp)
      · split at hstep
        · exact absurd hstep (by simp)
        · obtain ⟨rfl, -⟩ := Prod.mk.injEq .. |>.mp (Option.some.inj hstep).symm
          exact hv
  | key code v =>
    have : handle_key cfg t code v s = (s', cmds) := Option.some.inj hstep
    have hk := handle_key_keeps_visible cfg t code v s k hv
    rw [this] at hk
    exact hk
  | rel code v =>
    have hrel : handle_rel t code v s = (s', cmds) := Option.some.inj hstep
    have hm : (handle_rel t code v s).1.mods = s.mods := by
      rw [handle_rel]
      repeat' split
      all_goals rfl
    rw [hrel] at hm
    rw [hm]
    exact hv

/-- C5: during the no-event sweep a modifier badge goes from shown to
hidden only when the post-tick state has no active key badge (`keytime`
cleared); while the key badge is active and not yet expired the modifier
visibilities are untouched; and no event tick ever hides a shown modifier
badge. -/
theorem c5_modifier_persistence (sq : ℚ → ℚ) (cfg : Config) (w h t : ℚ)
    (s s' : AppState) (cmds : List Cmd) (k : ModKey) :
    (on_idle sq cfg w h t none s = some (s', cmds) →
       (((s.mods.get k).visible = true → (s'.mods.get k).visible = false → s'.keytime = 0) ∧
        (s.keytime ≠ 0 → t - s.keytime ≤ cfg.timeout →
           (s'.mods.get k).visible = (s.mods.get k).visible))) ∧
    (∀ e, on_idle sq cfg w h t (some e) s = some (s', cmds) →
       (s.mods.get k).visible = true → (s'.mods.get k).visible = true) := by
  constructor
  · intro hstep
    have hst : sweep_tick cfg t s = (s', cmds) := Option.some.inj hstep
    have hs' : s' = (sweep_tick cfg t s).1 := by rw [hst]
    subst hs'
    exact ⟨fun hvis hhid => sweep_tick_keytime_of_hidden cfg t s k hvis hhid,
           fun hk hle => congrArg Modifier.visible (sweep_tick_mods_unchanged cfg t s hk hle k)⟩
  · intro e hstep hv
    exact event_tick_keeps_visible sq cfg w h t s s' cmds k e hstep hv

theorem c5_witness :
    on_idle idsq cfgX 6 4 (11/10) none s5W = some (s5W, [Cmd.sleep]) ∧
    s5W.keytime ≠ 0 ∧ (11/10 : ℚ) - s5W.keytime ≤ cfgX.timeout ∧
    (s5W.mods.get ModKey.shift).visible = (s5W.mods.get ModKey.shift).visible := by
  have hm : ¬ (s5W.btntimes.length % 2 = 0 ∧ 0 < s5W.btntimes.length ∧
      cfgX.timeout < 11/10 - s5W.btntimes.getD (s5W.btntimes.length - 2) 0) := by
    simp [s5W, initState]
  have hkc : ¬ (0 < s5W.keytime ∧ cfgX.timeout < 11/10 - s5W.keytime) := by
    norm_num [s5W, initState, cfgX]
  have hz : s5W.keytime ≠ 0 := by norm_num [s5W, initState]
  have heq : on_idle idsq cfgX 6 4 (11/10) none s5W = some (s5W, [Cmd.sleep]) := by
    show some (sweep_tick cfgX (11/10) s5W) = _
    rw [sweep_tick_eq_d cfgX (11/10) s5W hm hkc hz]
  refine ⟨heq, hz, by norm_num [s5W, initState, cfgX], ?_⟩
  exact ((c5_modifier_persistence idsq cfgX 6 4 (11/10) s5W s5W [Cmd.sleep] ModKey.shift).1
    heq).2 hz (by norm_num [s5W, initState, cfgX])

/-- C7 counterexample: with both the mouse glyph and the key badge past
their timeouts, the no-event tick hides only the mouse glyph, leaves the
key badge shown, and emits no pause: the early return skips the other
expirations and the sleep. -/
theorem c7_skip_cex :
    (0 < s7C.keytime ∧ cfgX.timeout < 2 - s7C.keytime) ∧
    on_idle idsq cfgX 6 4 2 none s7C = some ({ s7C with btntimes := [] }, [Cmd.hideMouse]) ∧
    ({ s7C with btntimes := [] } : AppState).keyVisible = true ∧
    ({ s7C with btntimes := [] } : AppState).keytime = 1 ∧
    Cmd.sleep ∉ [Cmd.hideMouse] := by
  have hm : s7C.btntimes.length % 2 = 0 ∧ 0 < s7C.btntimes.length ∧
      cfgX.timeout < 2 - s7C.btntimes.getD (s7C.btntimes.length - 2) 0 := by
    norm_num [s7C, initState, cfgX]
  refine ⟨by norm_num [s7C, initState, cfgX], ?_, by rfl, by norm_num [s7C, initState], by decide⟩
  show some (sweep_tick cfgX 2 s7C) = _
  rw [sweep_tick_eq_a cfgX 2 s7C hm]

/-- C7 (amended): when the mouse glyph is due the sweep hides it and ends
the tick at once, with no key or modifier expiry and no pause; only
otherwise does it expire the key badge if due, hide the pending modifiers
if no key badge remains active, and pause before yielding. -/
theorem c7_sweep_shape (sq : ℚ → ℚ) (cfg : Config) (w h t : ℚ) (s s' : AppState)
    (cmds : List Cmd)
    (hstep : on_idle sq cfg w h t none s = some (s', cmds)) :
    (mouseDue cfg t s = true → s' = { s with btntimes := [] } ∧ cmds = [Cmd.hideMouse]) ∧
    (mouseDue cfg t s = false →
       cmds.getLast? = some Cmd.sleep ∧
       (0 < s.keytime ∧ cfg.timeout < t - s.keytime →
          s'.keytime = 0 ∧ s'.keyVisible = false ∧ Cmd.hideKey ∈ cmds) ∧
       (s'.keytime = 0 →
          ∀ k, (s.mods.get k).tohide = true →
            (s'.mods.get k).visible = false ∧ (s'.mods.get k).tohide = false)) := by
  have hst : sweep_tick cfg t s = (s', cmds) := Option.some.inj hstep
  constructor
  · intro hmd
    have hP := of_decide_eq_true hmd
    rw [sweep_tick_eq_a cfg t s hP] at hst
    exact ⟨(congrArg Prod.fst hst).symm, (congrArg Prod.snd hst).symm⟩
  · intro hmd
    have hP := of_decide_eq_false hmd
    by_cases hkc : (0 < s.keytime ∧ cfg.timeout < t - s.keytime)
    · rw [sweep_tick_eq_b cfg t s hP hkc] at hst
      obtain ⟨hs', hcmds⟩ := Prod.mk.injEq .. |>.mp hst
      subst hcmds
      refine ⟨by simp, fun _ => ?_, fun _ k htoh => ?_⟩
      · rw [← hs']
        exact ⟨rfl, rfl, by simp⟩
      · rw [← hs']
        simp only [get_sweep]
        simp [sweepOne, htoh]
    · by_cases hz : s.keytime = 0
      · rw [sweep_tick_eq_c cfg t s hP hkc hz] at hst
        obtain ⟨hs', hcmds⟩ := Prod.mk.injEq .. |>.mp hst
        subst hcmds
        refine ⟨by simp, fun hc => absurd hc hkc, fun _ k htoh => ?_⟩
        rw [← hs']
        simp only [get_sweep]
        simp [sweepOne, htoh]
      · rw [sweep_tick_eq_d cfg t s hP hkc hz] at hst
        obtain ⟨hs', hcmds⟩ := Prod.mk.injEq .. |>.mp hst
        subst hcmds
        refine ⟨by simp, fun hc => absurd hc hkc, fun h0 k _ => ?_⟩
        rw [← hs'] at h0
        exact absurd h0 hz

theorem c7_witness :
    mouseDue cfgX 1 (initState 0 0) = false ∧
    ([Cmd.sleep] : List Cmd).getLast? = some Cmd.sleep := by
  have hmd : mouseDue cfgX 1 (initState 0 0) = false := by
    simp [mouseDue, initState]
  have heq : on_idle idsq cfgX 6 4 1 none (initState 0 0) =
      some (initState 0 0, [Cmd.sleep]) := by decide
  exact ⟨hmd,
    ((c7_sweep_shape idsq cfgX 6 4 1 (initState 0 0) (initState 0 0) [Cmd.sleep] heq).2 hmd).1⟩

theorem runMotions_drag (sq : ℚ → ℚ) (cfg : Config) (w h : ℚ) :
    ∀ (ms : List (ℚ × ℚ × ℚ)) (s : AppState), 0 < s.dragstate →
      ∃ s2, runMotions sq cfg w h ms s = some s2 ∧
        s2.dragstate = s.dragstate + ms.length := by
  intro ms
  induction ms with
  | nil => exact fun s _ => ⟨s, rfl, by simp⟩
  | cons q rest ih =>
    intro s hd
    obtain ⟨t0, x0, y0⟩ := q
    have hstep : on_idle sq cfg w h t0 (some (XEvent.mov x0 y0)) s =
        some ({ s with mousepos := (x0, y0), dragstate := s.dragstate + 1 },
              [Cmd.moveIcon (x0 - s.dragxy.1) (y0 - s.dragxy.2)]) := by
      simp [on_idle, handle_mov, hd]
    obtain ⟨s2, hrun, hds⟩ :=
      ih { s with mousepos := (x0, y0), dragstate := s.dragstate + 1 } (by simp)
    refine ⟨s2, ?_, ?_⟩
    · rw [runMotions, hstep]
      exact hrun
    · rw [hds]
      simp
      omega

/-- C8: an icon press immediately followed by a release (no motion tick in
between) triggers `exit(0)`; with at least one intervening motion tick the
release does not terminate and resets the drag state to idle. -/
theorem c8_icon_click_quit (sq : ℚ → ℚ) (cfg : Config) (w h : ℚ) (s : AppState) (p : ℚ × ℚ) :
    (on_iconbtnrelease 1 (on_iconbtnpress 1 p s)).2 = true ∧
    (∀ ms s2, ms ≠ [] → runMotions sq cfg w h ms (on_iconbtnpress 1 p s) = some s2 →
       (on_iconbtnrelease 1 s2).2 = false ∧ (on_iconbtnrelease 1 s2).1.dragstate = 0) := by
  constructor
  · simp [on_iconbtnpress, on_iconbtnrelease]
  · intro ms s2 hne hrun
    have hd : 0 < (on_iconbtnpress 1 p s).dragstate := by simp [on_iconbtnpress]
    obtain ⟨s2', hrun', hds⟩ := runMotions_drag sq cfg w h ms _ hd
    rw [hrun'] at hrun
    obtain rfl := Option.some.inj hrun
    have h2 : 2 ≤ s2'.dragstate := by
      rw [hds]
      cases ms with
      | nil => exact absurd rfl hne
      | cons q qs =>
        simp [on_iconbtnpress]
        omega
    have hni : ¬ ((1:ℕ) = 1 ∧ s2'.dragstate < 2) := by
      rintro ⟨-, hlt⟩
      omega
    rw [on_iconbtnrelease, if_neg hni]
    exact ⟨rfl, rfl⟩

theorem c8_witness :
    ([((1:ℚ), (5:ℚ), (5:ℚ))] ≠ ([] : List (ℚ × ℚ × ℚ))) ∧
    runMotions idsq cfgX 6 4 [(1, 5, 5)] (on_iconbtnpress 1 (0, 0) (initState 0 0)) =
      some s8W ∧
    (on_iconbtnrelease 1 (on_iconbtnpress 1 (0, 0) (initState 0 0))).2 = true ∧
    (on_iconbtnrelease 1 s8W).2 = false ∧ (on_iconbtnrelease 1 s8W).1.dragstate = 0 := by
  have hne : ([((1:ℚ), (5:ℚ), (5:ℚ))] ≠ ([] : List (ℚ × ℚ × ℚ))) := by simp
  have hrun : runMotions idsq cfgX 6 4 [(1, 5, 5)] (on_iconbtnpress 1 (0, 0) (initState 0 0)) =
      some s8W := by decide
  have happ := c8_icon_click_quit idsq cfgX 6 4 (initState 0 0) (0, 0)
  exact ⟨hne, hrun, happ.1, (happ.2 [(1, 5, 5)] s8W hne hrun).1,
         (happ.2 [(1, 5, 5)] s8W hne hrun).2⟩

theorem sweep_tick_btntimes (cfg : Config) (t : ℚ) (s : AppState) :
    (sweep_tick cfg t s).1.btntimes = [] ∨ (sweep_tick cfg t s).1.btntimes = s.btntimes := by
  simp only [sweep_tick]
  split
  · exact Or.inl rfl
  · right
    repeat' split
    all_goals rfl

theorem handle_key_btntimes (cfg : Config) (t : ℚ) (code : List Char) (v : ℕ) (s : AppState)
    (hpar : ((startswith code ("BTN_LEFT".toList) || startswith code ("BTN_MIDDLE".toList) ||
              startswith code ("BTN_RIGHT".toList)) && v != 1) = true →
            s.btntimes.length % 2 = 1)
    (hlen : s.btntimes.length ≤ 6) :
    (handle_key cfg t code v s).1.btntimes.length ≤ 6 := by
  rw [handle_key]
  split
  · exact hlen
  · split
    · split
      all_goals split
      all_goals exact hlen
    · split
      · next hbl =>
        split
        · next hv =>
          split
          · next hc =>
            obtain ⟨h2, -⟩ := hc
            simp [List.length_append, h2]
          · split
            · next hc =>
              obtain ⟨h4, -⟩ := hc
              simp [List.length_append, h4]
            · simp
        · next hv =>
          have hp : s.btntimes.length % 2 = 1 := hpar (by
            simp [hv]
            simp at hbl
            exact Or.inl (Or.inl hbl))
          simp only [List.length_append, List.length_cons, List.length_nil]
          omega
      · next hbl =>
        split
        · next hbm =>
          split
          · simp
          · next hv =>
            have hp : s.btntimes.length % 2 = 1 := hpar (by
              simp [hv]
              simp at hbm
              exact Or.inl (Or.inr hbm))
            simp only [List.length_append, List.length_cons, List.length_nil]
            omega
        · split
          · next hbr =>
            split
            · simp
            · next hv =>
              have hp : s.btntimes.length % 2 = 1 := hpar (by
                simp [hv]
                simp at hbr
                exact Or.inr hbr)
              simp only [List.length_append, List.length_cons, List.length_nil]
              omega
          · exact hlen

theorem handle_rel_btntimes (t : ℚ) (code : List Char) (v : ℤ) (s : AppState)
    (hlen : s.btntimes.length ≤ 6) :
    (handle_rel t code v s).1.btntimes.length ≤ 6 := by
  rw [handle_rel]
  repeat' split
  all_goals simp [hlen]

theorem btntimes_step (sq : ℚ → ℚ) (cfg : Config) (w h t : ℚ) (ev : Option XEvent)
    (s s' : AppState) (cmds : List Cmd)
    (hstep : on_idle sq cfg w h t ev s = some (s', cmds))
    (hpar : isRelease ev = true → s.btntimes.length % 2 = 1)
    (hlen : s.btntimes.length ≤ 6) : s'.btntimes.length ≤ 6 := by
  cases ev with
  | none =>
    have hst : sweep_tick cfg t s = (s', cmds) := Option.some.inj hstep
    have hs' : s' = (sweep_tick cfg t s).1 := by rw [hst]
    subst hs'
    rcases sweep_tick_btntimes cfg t s with hb | hb
    · simp [hb]
    · rw [hb]
      exact hlen
  | some e =>
    cases e with
    | mov x y =>
      simp only [on_idle, handle_mov] at hstep
      split at hstep
      · obtain ⟨rfl, -⟩ := Prod.mk.injEq .. |>.mp (Option.some.inj hstep).symm
        exact hlen
      · simp only [mov_filter] at hstep
        split at hstep
        · exact absurd hstep (by simp)
        · split at hstep
          · exact absurd hstep (by simp)
          · obtain ⟨rfl, -⟩ := Prod.mk.injEq .. |>.mp (Option.some.inj hstep).symm
            exact hlen
    | key code v =>
      have hst : handle_key cfg t code v s = (s', cmds) := Option.some.inj hstep
      have hs' : s' = (handle_key cfg t code v s).1 := by rw [hst]
      subst hs'
      exact handle_key_btntimes cfg t code v s (fun hb => hpar (by simpa [isRelease] using hb))
        hlen
    | rel code v =>
      have hst : handle_rel t code v s = (s', cmds) := Option.some.inj hstep
      have hs' : s' = (handle_rel t code v s).1 := by rw [hst]
      subst hs'
      exact handle_rel_btntimes t code v s hlen

theorem wfrun_btntimes (sq : ℚ → ℚ) (cfg : Config) (w h : ℚ) (a b : AppState)
    (hr : WFRun sq cfg w h a b) (ha : a.btntimes.length ≤ 6) : b.btntimes.length ≤ 6 := by
  induction hr with
  | refl => exact ha
  | step hrun hpar hstep ih => exact btntimes_step _ _ _ _ _ _ _ _ _ hstep hpar ih

/-- C9 counterexample: seven consecutive left-button release events (an
interleaving the claim quantifies over, though no physical button produces
a release while the history parity says the button is up) grow `btntimes`
to seven timestamps, beyond the claimed bound of six. -/
theorem c9_unbounded_cex :
    (runEv idsq cfgX 6 4
        [(1, some (XEvent.key ("BTN_LEFT".toList) 0)),
         (2, some (XEvent.key ("BTN_LEFT".toList) 0)),
         (3, some (XEvent.key ("BTN_LEFT".toList) 0)),
         (4, some (XEvent.key ("BTN_LEFT".toList) 0)),
         (5, some (XEvent.key ("BTN_LEFT".toList) 0)),
         (6, some (XEvent.key ("BTN_LEFT".toList) 0)),
         (7, some (XEvent.key ("BTN_LEFT".toList) 0))]
        (initState 0 0)).map (fun q => q.1.btntimes.length) = some 7 ∧ ¬ (7 ≤ 6) := by
  exact ⟨by decide, by decide⟩

/-- C9 (amended): along every run from startup in which button release
events are delivered only while the press parity is odd (button down) —
as a physical input source does — the click history never holds more than
six timestamps. -/
theorem c9_bounded (sq : ℚ → ℚ) (cfg : Config) (w h px py : ℚ) (s : AppState)
    (hr : WFRun sq cfg w h (initState px py) s) : s.btntimes.length ≤ 6 :=
  wfrun_btntimes sq cfg w h _ s hr (by simp [initState])

theorem c9_witness :
    ({ initState 0 0 with btntimes := [(1:ℚ)] } : AppState).btntimes.length ≤ 6 :=
  c9_bounded idsq cfgX 6 4 0 0 _
    (@WFRun.step idsq cfgX 6 4 (initState 0 0) (initState 0 0)
      ({ initState 0 0 with btntimes := [(1:ℚ)] }) 1
      (some (XEvent.key ("BTN_LEFT".toList) 1)) [Cmd.showMouse MouseG.left1]
      (WFRun.refl _) (by decide) (by decide))
